import Mathlib

/-!
Verification of the query/disambiguation/context pipeline of the
Justin-sun-RAG repository.

The Python services are shallowly embedded: floats (similarity scores)
become exact rationals, Python lists become `List`, `dataclass`es become
structures, and the external tokenizer (tiktoken) as well as the vector
index and embedding provider are passed in as function arguments at the
collaborator boundary, exactly where the code calls out to them.
-/

namespace Rag

/-- Python truthiness of a string: non-empty strings are truthy. -/
def strTruthy (s : String) : Bool := !(s == "")

/-- Python `a or b` where `a : Optional[str]` and the result must be a
string: `None` and `""` fall through to `b`
(`doc_results[0].document_title or f"Document {doc_id[:8]}"`). -/
def pyOrStr (a : Option String) (b : String) : String :=
  match a with
  | some s => if s = "" then b else s
  | none => b

/-- Python `a or b` on two `Optional[str]` values
(`metadata.get("original_filename") or metadata.get("filename")`). -/
def pyOrOpt (a b : Option String) : Option String :=
  match a with
  | some s => if s = "" then b else some s
  | none => b

/-- Iteration order of a Python `dict` built by inserting each key at its
first occurrence: the distinct values of a list, first occurrence first. -/
def dedupFirst {α : Type} [DecidableEq α] : List α → List α
  | [] => []
  | x :: xs => x :: (dedupFirst xs).filter (fun y => decide (y ≠ x))

/-- `app/services/semantic_search.py` `SearchResult`: one retrieved
fragment.  `metadata` (a `Dict[str, Any]`) is modelled as a string-valued
association list, which covers every key the core reads. -/
structure SearchResult where
  chunk_id : Option String
  document_id : String
  text : String
  metadata : List (String × String)
  score : ℚ
  document_title : Option String := none
  document_type : Option String := none
  «section» : Option String := none
deriving Repr, DecidableEq, Inhabited

/-- The loop of `DisambiguationService._calculate_combined_score`,
started at position `i`: returns `(weighted_sum, total_weight)` where each
result at position `i` contributes `1/(i+1) * score` and `1/(i+1)`. -/
def weightedSums : List SearchResult → Nat → ℚ × ℚ
  | [], _ => (0, 0)
  | r :: rs, i =>
    let position_weight : ℚ := 1 / ((i : ℚ) + 1)
    let rest := weightedSums rs (i + 1)
    (position_weight * r.score + rest.1, position_weight + rest.2)

/-- `DisambiguationService._calculate_combined_score`: position-weighted
average of the scores; `0.0` for an empty group, and the Python guard
`if total_weight > 0` is kept. -/
def calculate_combined_score (results : List SearchResult) : ℚ :=
  if results.isEmpty then 0
  else
    let sums := weightedSums results 0
    if 0 < sums.2 then sums.1 / sums.2 else 0

theorem weightedSums_eq (l : List SearchResult) (k : Nat) :
    weightedSums l k =
      (∑ i ∈ Finset.range l.length, (1 / ((i : ℚ) + (k : ℚ) + 1)) * (l.getD i default).score,
       ∑ i ∈ Finset.range l.length, 1 / ((i : ℚ) + (k : ℚ) + 1)) := by
  induction l generalizing k with
  | nil => simp [weightedSums]
  | cons r rs ih =>
    simp only [weightedSums, ih (k + 1), List.length_cons]
    refine Prod.ext ?_ ?_ <;>
      simp only [Finset.sum_range_succ', List.getD_cons_succ, List.getD_cons_zero]
    · push_cast
      rw [add_comm]
      congr 1
      · exact Finset.sum_congr rfl fun i _ => by ring_nf
      · norm_num
    · push_cast
      rw [add_comm]
      congr 1
      · exact Finset.sum_congr rfl fun i _ => by ring_nf
      · norm_num

theorem weightedSums_snd_nonneg (l : List SearchResult) (k : Nat) :
    0 ≤ (weightedSums l k).2 := by
  induction l generalizing k with
  | nil => simp [weightedSums]
  | cons r rs ih =>
    simp only [weightedSums]
    have h1 : (0 : ℚ) < 1 / ((k : ℚ) + 1) := by positivity
    have := ih (k + 1)
    linarith

theorem weightedSums_snd_pos (l : List SearchResult) (h : l ≠ []) (k : Nat) :
    0 < (weightedSums l k).2 := by
  cases l with
  | nil => exact absurd rfl h
  | cons r rs =>
    simp only [weightedSums]
    have h1 : (0 : ℚ) < 1 / ((k : ℚ) + 1) := by positivity
    have := weightedSums_snd_nonneg rs (k + 1)
    linarith

theorem weightedSums_bounds (l : List SearchResult) (k : Nat) (a b : ℚ)
    (ha : ∀ r ∈ l, a ≤ r.score) (hb : ∀ r ∈ l, r.score ≤ b) :
    a * (weightedSums l k).2 ≤ (weightedSums l k).1 ∧
      (weightedSums l k).1 ≤ b * (weightedSums l k).2 := by
  induction l generalizing k with
  | nil => simp [weightedSums]
  | cons r rs ih =>
    have har : a ≤ r.score := ha r (List.mem_cons_self r rs)
    have hbr : r.score ≤ b := hb r (List.mem_cons_self r rs)
    have ih' := ih (k + 1) (fun x hx => ha x (List.mem_cons_of_mem r hx))
      (fun x hx => hb x (List.mem_cons_of_mem r hx))
    simp only [weightedSums]
    have hw : (0 : ℚ) < 1 / ((k : ℚ) + 1) := by positivity
    constructor
    · have : a * (1 / ((k : ℚ) + 1)) ≤ (1 / ((k : ℚ) + 1)) * r.score := by
        rw [mul_comm]
        exact mul_le_mul_of_nonneg_left har (le_of_lt hw)
      have h2 := ih'.1
      nlinarith
    · have : (1 / ((k : ℚ) + 1)) * r.score ≤ b * (1 / ((k : ℚ) + 1)) := by
        rw [mul_comm b _]
        exact mul_le_mul_of_nonneg_left hbr (le_of_lt hw)
      have h2 := ih'.2
      nlinarith

theorem calculate_combined_score_nil : calculate_combined_score [] = 0 := rfl

/-- The combined score of a non-empty group lies between any lower bound
and any upper bound of its individual scores. -/
theorem calculate_combined_score_between (results : List SearchResult)
    (hne : results ≠ []) (a b : ℚ)
    (ha : ∀ r ∈ results, a ≤ r.score) (hb : ∀ r ∈ results, r.score ≤ b) :
    a ≤ calculate_combined_score results ∧ calculate_combined_score results ≤ b := by
  have hpos := weightedSums_snd_pos results hne 0
  have hbds := weightedSums_bounds results 0 a b ha hb
  have hempty : results.isEmpty = false := by
    cases results with
    | nil => exact absurd rfl hne
    | cons x xs => rfl
  simp only [calculate_combined_score, hempty, Bool.false_eq_true, if_false, if_pos hpos]
  constructor
  · rw [le_div_iff₀ hpos]
    exact hbds.1
  · rw [div_le_iff₀ hpos]
    exact hbds.2

/-- Aggregated metadata dict of an `EntityGroup`: `_group_by_document`
fills the keys `document_id, document_type, result_count, sections`;
`_group_by_section` fills `document_id, section, document_type,
result_count`. -/
inductive GroupMeta where
  | doc (document_id : String) (document_type : Option String)
        (result_count : Nat) (sections : List String)
  | sec (document_id : String) («section» : String)
        (document_type : Option String) (result_count : Nat)
deriving Repr, DecidableEq, Inhabited

/-- `metadata['result_count']`. -/
def GroupMeta.result_count : GroupMeta → Nat
  | .doc _ _ n _ => n
  | .sec _ _ _ n => n

/-- `metadata.get("sections")`: present only on document groups, so the
section shape yields the falsy `[]`. -/
def GroupMeta.sections : GroupMeta → List String
  | .doc _ _ _ ss => ss
  | .sec _ _ _ _ => []

/-- `metadata['section']`: read only on section groups (document groups
never reach that branch of the option builder). -/
def GroupMeta.sectionKey : GroupMeta → String
  | .doc _ _ _ _ => ""
  | .sec _ s _ _ => s

/-- `app/services/disambiguation.py` `EntityGroup`. -/
structure EntityGroup where
  entity_id : String
  entity_type : String
  entity_title : String
  results : List SearchResult
  combined_score : ℚ
  metadata : GroupMeta
deriving Repr, DecidableEq, Inhabited

/-- `app/services/disambiguation.py` `DisambiguationOption`. -/
structure DisambiguationOption where
  group_id : String
  title : String
  description : String
  entity_type : String
  result_count : Nat
  avg_score : ℚ
  sample_text : String
  metadata : GroupMeta
deriving Repr, DecidableEq, Inhabited

/-- The group `_group_by_document` builds for one `doc_id` bucket
(`None` for the empty bucket the code skips with `continue`).
`list(set(...))` for the section names is modelled as first-occurrence
deduplication (the claims never depend on that set's iteration order). -/
def mkDocGroup (doc_id : String) : List SearchResult → Option EntityGroup
  | [] => none
  | r0 :: rest =>
    let doc_results := r0 :: rest
    let combined_score := calculate_combined_score doc_results
    let title := pyOrStr r0.document_title ("Document " ++ doc_id.take 8)
    some
      { entity_id := doc_id
        entity_type := "document"
        entity_title := title
        results := doc_results
        combined_score := combined_score
        metadata := .doc doc_id r0.document_type doc_results.length
          (dedupFirst ((doc_results.filterMap (·.«section»)).filter strTruthy)) }

/-- `DisambiguationService._group_by_document`: bucket the results by
`document_id` (dict insertion order = first occurrence of each id), one
`EntityGroup` per non-empty bucket. -/
def group_by_document (results : List SearchResult) : List EntityGroup :=
  let keys := dedupFirst (results.map (·.document_id))
  keys.filterMap fun doc_id =>
    mkDocGroup doc_id (results.filter (fun r => decide (r.document_id = doc_id)))

/-- Python `str.title()` as used for the section name in a section
group's display title: the first cased character of each alphabetic run
is upper-cased, the rest lower-cased. -/
def pyTitle (s : String) : String :=
  (s.data.foldl (fun (acc : List Char × Bool) c =>
      if c.isAlpha then
        (acc.1 ++ [if acc.2 then c.toLower else c.toUpper], true)
      else
        (acc.1 ++ [c], false))
    ([], false)).1.asString

/-- The key `_group_by_section` buckets a result under:
`result.section or "general"`. -/
def sectionKeyOf (r : SearchResult) : String :=
  pyOrStr r.«section» "general"

/-- The group `_group_by_section` builds for one section bucket. -/
def mkSecGroup («section» : String) : List SearchResult → Option EntityGroup
  | [] => none
  | r0 :: rest =>
    let section_results := r0 :: rest
    let combined_score := calculate_combined_score section_results
    let doc_id := r0.document_id
    let doc_title := pyOrStr r0.document_title ("Document " ++ doc_id.take 8)
    let title :=
      if «section» ≠ "general" then doc_title ++ " - " ++ pyTitle «section»
      else doc_title
    some
      { entity_id := doc_id ++ "_" ++ «section»
        entity_type := "section"
        entity_title := title
        results := section_results
        combined_score := combined_score
        metadata := .sec doc_id «section» r0.document_type section_results.length }

/-- `DisambiguationService._group_by_section`: bucket the results by
section (missing or empty section falls to `"general"`). -/
def group_by_section (results : List SearchResult) : List EntityGroup :=
  let keys := dedupFirst (results.map sectionKeyOf)
  keys.filterMap fun s =>
    mkSecGroup s (results.filter (fun r => decide (sectionKeyOf r = s)))

/-- Insert one group into a list already sorted by `combined_score`
descending, after every group whose score is strictly larger; together
with `sortByScoreDesc` this is extensionally Python's stable
`list.sort(key=lambda x: x.combined_score, reverse=True)`. -/
def insertDesc (g : EntityGroup) : List EntityGroup → List EntityGroup
  | [] => [g]
  | h :: t =>
    if g.combined_score < h.combined_score then h :: insertDesc g t
    else g :: h :: t

/-- Stable sort by `combined_score`, descending. -/
def sortByScoreDesc : List EntityGroup → List EntityGroup
  | [] => []
  | g :: gs => insertDesc g (sortByScoreDesc gs)

/-- `DisambiguationService._group_results_by_entity`: document-level
partition, replaced by the per-section partition of the top 3 documents
when more than 5 documents are present. -/
def group_results_by_entity (results : List SearchResult) : List EntityGroup :=
  let document_groups := group_by_document results
  if document_groups.length > 5 then
    let top_docs := (sortByScoreDesc document_groups).take 3
    (top_docs.map (fun doc_group => group_by_section doc_group.results)).flatten
  else
    document_groups

/-- Python `f"{x:.2f}"` on the exact rational standing in for the float:
round to hundredths, print with two decimal digits. -/
def formatScore2 (q : ℚ) : String :=
  let cents : ℤ := round (q * 100)
  let sign := if cents < 0 then "-" else ""
  let n := cents.natAbs
  sign ++ toString (n / 100) ++ "." ++ (if n % 100 < 10 then "0" else "") ++ toString (n % 100)

/-- `DisambiguationService._create_disambiguation_options`: one option
per group, in order; note the sample text always carries the `"..."`
suffix when the group has any result — the guard in
`group.results[0].text[:200] + "..." if group.results else ""` tests the
result list, not whether 200 characters truncated anything. -/
def create_disambiguation_options (groups : List EntityGroup) : List DisambiguationOption :=
  groups.map fun group =>
    let description :=
      if group.entity_type = "document" then
        let base := "Document with " ++ toString group.metadata.result_count ++
          " relevant sections"
        if group.metadata.sections ≠ [] then
          base ++ " (sections: " ++
            String.intercalate ", " (group.metadata.sections.take 3) ++ ")"
        else base
      else if group.entity_type = "section" then
        "Section \x27" ++ group.metadata.sectionKey ++ "\x27 with " ++
          toString group.metadata.result_count ++ " relevant parts"
      else
        "Content with " ++ toString group.metadata.result_count ++ " relevant parts"
    let sample_text :=
      match group.results with
      | [] => ""
      | r0 :: _ => r0.text.take 200 ++ "..."
    { group_id := group.entity_id
      title := group.entity_title
      description := description
      entity_type := group.entity_type
      result_count := group.results.length
      avg_score := group.combined_score
      sample_text := sample_text
      metadata := group.metadata }

/-- The groups left after the filter / stable descending sort / `max_groups`
cut inside `disambiguate_results`. -/
def limitedGroups (results : List SearchResult) (max_groups : Nat)
    (min_score_threshold : ℚ) : List EntityGroup :=
  (sortByScoreDesc ((group_results_by_entity results).filter
    (fun g => decide (min_score_threshold ≤ g.combined_score)))).take max_groups

/-- `DisambiguationService.disambiguate_results` (defaults in the source:
`max_groups = 5`, `min_score_threshold = 0.5`). -/
def disambiguate_results (results : List SearchResult) (max_groups : Nat)
    (min_score_threshold : ℚ) :
    List EntityGroup × Option (List DisambiguationOption) :=
  if results.isEmpty then ([], none)
  else
    let limited_groups := limitedGroups results max_groups min_score_threshold
    if limited_groups.length = 1 then (limited_groups, none)
    else if 1 < limited_groups.length then
      (limited_groups, some (create_disambiguation_options limited_groups))
    else ([], none)

/-- `app/services/context_builder.py` `ContextChunk`. -/
structure ContextChunk where
  text : String
  source : String
  «section» : Option String
  chunk_id : Option String
  document_id : String
  relevance_score : ℚ
  token_count : Nat
deriving Repr, DecidableEq, Inhabited

/-- `ContextWindow.metadata` dict: `{}` for the empty-input window, else
the model/budget/count/relevance facts the builder records. -/
inductive CWMetadata where
  | empty
  | info (model_name : String) (max_tokens : Nat)
         (original_result_count included_result_count : Nat)
         (average_relevance : ℚ)
deriving Repr, DecidableEq, Inhabited

/-- `app/services/context_builder.py` `ContextWindow`. -/
structure ContextWindow where
  chunks : List ContextChunk
  total_tokens : Nat
  sources : List String
  sections : List String
  metadata : CWMetadata
  truncated : Bool := false
  dropped_results : Nat := 0
deriving Repr, DecidableEq, Inhabited

/-- The greedy loop of `ContextBuilder._apply_token_limit`, carrying
`current_tokens`; returns `(final_chunks, dropped_count)`. -/
def packLoop (max_tokens : Nat) : List ContextChunk → Nat → List ContextChunk × Nat
  | [], _ => ([], 0)
  | c :: cs, current_tokens =>
    if current_tokens + c.token_count ≤ max_tokens then
      let rest := packLoop max_tokens cs (current_tokens + c.token_count)
      (c :: rest.1, rest.2)
    else
      let rest := packLoop max_tokens cs current_tokens
      (rest.1, rest.2 + 1)

/-- `ContextBuilder._apply_token_limit`. -/
def apply_token_limit (chunks : List ContextChunk) (max_tokens : Nat) :
    List ContextChunk × Bool × Nat :=
  if chunks.isEmpty then (chunks, false, 0)
  else
    let total_tokens := (chunks.map (·.token_count)).sum
    if total_tokens ≤ max_tokens then (chunks, false, 0)
    else
      let packed := packLoop max_tokens chunks 0
      (packed.1, true, packed.2)

/-- Python truthiness of `Optional[str]`: `None` and `""` are falsy. -/
def optTruthy (o : Option String) : Bool :=
  match o with
  | some s => strTruthy s
  | none => false

/-- `ContextBuilder._format_chunk_text`. -/
def format_chunk_text (result : SearchResult)
    (include_sources include_sections include_relevance : Bool) : String :=
  let text_parts : List String := []
  let text_parts := if include_sources then
    text_parts ++ ["[Source: " ++
      pyOrStr result.document_title ("Document " ++ result.document_id.take 8) ++ "]"]
    else text_parts
  let text_parts := if include_sections && optTruthy result.«section» then
    text_parts ++ ["[Section: " ++ result.«section».getD "" ++ "]"]
    else text_parts
  let text_parts := if include_relevance then
    text_parts ++ ["[Relevance: " ++ formatScore2 result.score ++ "]"]
    else text_parts
  String.intercalate " " (text_parts ++ [result.text])

/-- `ContextBuilder._get_max_tokens_for_model`. -/
def get_max_tokens_for_model (model_name : String) : Nat :=
  if model_name = "gpt-3.5-turbo" then 4096
  else if model_name = "gpt-3.5-turbo-16k" then 16384
  else if model_name = "gpt-4" then 8192
  else if model_name = "gpt-4-32k" then 32768
  else if model_name = "gpt-4-turbo" then 128000
  else if model_name = "gpt-4o" then 128000
  else if model_name = "gpt-4o-mini" then 128000
  else 4096

/-- `ContextBuilder.build_context_from_results`.  The tiktoken tokenizer
is the collaborator argument `enc`; a chunk's `token_count` is
`len(enc(chunk_text))`.  `max_tokens or self.max_context_tokens` keeps
Python truthiness: `None` and `0` both fall back to the model limit.
The `sources`/`sections` Python sets are listed in first-occurrence
order (no claim depends on set iteration order). -/
def build_context_from_results (enc : String → List Nat) (model_name : String)
    (results : List SearchResult) (max_tokens : Option Nat)
    (include_sources include_sections include_relevance : Bool) : ContextWindow :=
  if results.isEmpty then
    { chunks := [], total_tokens := 0, sources := [], sections := [], metadata := .empty }
  else
    let maxT :=
      match max_tokens with
      | some n => if n = 0 then get_max_tokens_for_model model_name else n
      | none => get_max_tokens_for_model model_name
    let context_chunks : List ContextChunk := results.map fun result =>
      let chunk_text := format_chunk_text result include_sources include_sections include_relevance
      { text := chunk_text
        source := pyOrStr result.document_title ("Document " ++ result.document_id.take 8)
        «section» := result.«section»
        chunk_id := result.chunk_id
        document_id := result.document_id
        relevance_score := result.score
        token_count := (enc chunk_text).length }
    let sources :=
      if include_sources then dedupFirst (context_chunks.map (·.source)) else []
    let sections :=
      if include_sections then
        dedupFirst ((context_chunks.filterMap (·.«section»)).filter strTruthy)
      else []
    let packed := apply_token_limit context_chunks maxT
    let final_chunks := packed.1
    let total_tokens := (final_chunks.map (·.token_count)).sum
    { chunks := final_chunks
      total_tokens := total_tokens
      sources := sources
      sections := sections
      metadata := .info model_name maxT results.length final_chunks.length
        (((results.map (·.score)).sum) / (results.length : ℚ))
      truncated := packed.2.1
      dropped_results := packed.2.2 }

/-- One iteration of the loop in
`ContextBuilder.build_disambiguation_context` (1-based index `i`):
produces the option's text block and the option as it is left after the
iteration — the code assigns the truncated preview back into
`option.sample_text`, so the option is mutated in place when its sample
exceeds the per-option token budget. -/
def processOption (enc : String → List Nat) (dec : List Nat → String)
    (max_tokens_per_option : Nat) (i : Nat) (option : DisambiguationOption) :
    String × DisambiguationOption :=
  let option_text := toString i ++ ". " ++ option.title ++ "\n" ++
    "   " ++ option.description ++ "\n" ++
    "   Relevance: " ++ formatScore2 option.avg_score ++ "\n"
  if strTruthy option.sample_text then
    let sample_tokens := (enc option.sample_text).length
    let updated :=
      if sample_tokens > max_tokens_per_option then
        { option with
          sample_text := dec ((enc option.sample_text).take max_tokens_per_option) ++ "..." }
      else option
    (option_text ++ "   Preview: " ++ updated.sample_text ++ "\n", updated)
  else (option_text, option)

/-- The enumeration loop of `build_disambiguation_context`, returning the
text blocks and the post-loop state of every option. -/
def disambLoop (enc : String → List Nat) (dec : List Nat → String)
    (max_tokens_per_option : Nat) : Nat → List DisambiguationOption →
    List String × List DisambiguationOption
  | _, [] => ([], [])
  | i, o :: os =>
    let p := processOption enc dec max_tokens_per_option i o
    let rest := disambLoop enc dec max_tokens_per_option (i + 1) os
    (p.1 :: rest.1, p.2 :: rest.2)

/-- `ContextBuilder.build_disambiguation_context`, with the state of the
option list after the call made explicit in the second component. -/
def build_disambiguation_context (enc : String → List Nat) (dec : List Nat → String)
    (options : List DisambiguationOption) (max_tokens_per_option : Nat) :
    String × List DisambiguationOption :=
  let header := "Multiple relevant documents found. Please select the most relevant one:\n"
  let looped := disambLoop enc dec max_tokens_per_option 1 options
  (String.intercalate "\n" (header :: looped.1), looped.2)

/-- A metadata filter value: the code accepts a single string or a list
of strings under each filter key. -/
inductive FilterVal where
  | str (s : String)
  | list (l : List String)
deriving Repr, DecidableEq, Inhabited

/-- One raw hit from `VectorStore.search_similar`, a `Dict[str, Any]`;
each field is optional because the code reads it with `.get`. -/
structure VectorHit where
  chunk_id : Option String
  text : Option String
  score : Option ℚ
  metadata : Option (List (String × String))
  document_id : Option String
deriving Repr, DecidableEq, Inhabited

/-- `app/services/semantic_search.py` `SearchRequest` (source defaults:
`limit = 10`, `relevance_threshold = 0.7`). -/
structure SearchRequest where
  query : String
  limit : Nat := 10
  relevance_threshold : ℚ := 7/10
  filters : Option (List (String × FilterVal)) := none
  include_metadata : Bool := true
deriving Repr, DecidableEq, Inhabited

/-- `app/services/semantic_search.py` `SearchResponse`.  Wall-clock
timing is outside the embedding, so `processing_time_ms` is fixed. -/
structure SearchResponse where
  query : String
  results : List SearchResult
  total_found : Nat
  relevance_threshold : ℚ
  filters_applied : Option (List (String × FilterVal)) := none
  processing_time_ms : Option ℚ := none
deriving Repr, DecidableEq, Inhabited

/-- The `document_filter` extraction at the top of
`SemanticSearchService.search`: the first id of a list value, or a plain
string value, under the `"document_id"` key. -/
def extract_document_filter (filters : Option (List (String × FilterVal))) :
    Option String :=
  match filters with
  | none => none
  | some fs =>
    match fs.lookup "document_id" with
    | some (.list (d :: _)) => some d
    | some (.list []) => none
    | some (.str s) => some s
    | none => none

/-- `SemanticSearchService._process_search_results`: normalize raw hits
into `SearchResult`s, with the `.get` defaults of the source and the
metadata-derived title/type/section fields. -/
def process_search_results (vector_results : List VectorHit)
    (request : SearchRequest) : List SearchResult :=
  vector_results.map fun result =>
    let metadata := result.metadata.getD []
    { chunk_id := result.chunk_id
      document_id := result.document_id.getD ""
      text := result.text.getD ""
      metadata := if request.include_metadata then metadata else []
      score := result.score.getD 0
      document_title := pyOrOpt (metadata.lookup "original_filename") (metadata.lookup "filename")
      document_type := metadata.lookup "doc_type"
      «section» := metadata.lookup "section" }

/-- `SemanticSearchService.search`.  The embedding provider and the
vector index are collaborators; `index limit score_threshold
document_filter` stands for the `vector_store.search_similar` call (the
query embedding is fixed inside it). -/
def search (index : Nat → ℚ → Option String → List VectorHit)
    (request : SearchRequest) : SearchResponse :=
  let document_filter := extract_document_filter request.filters
  let vector_results := index (request.limit * 2) request.relevance_threshold document_filter
  let search_results := process_search_results vector_results request
  let filtered_results :=
    search_results.filter (fun r => decide (request.relevance_threshold ≤ r.score))
  let final_results := filtered_results.take request.limit
  { query := request.query
    results := final_results
    total_found := final_results.length
    relevance_threshold := request.relevance_threshold
    filters_applied := request.filters
    processing_time_ms := none }

/-- `app/services/query_handler.py` `QueryHandlerRequest` (source
defaults: `max_context_tokens = 4000`, `relevance_threshold = 0.7`). -/
structure QueryHandlerRequest where
  query : String
  user_id : Option String := none
  session_id : Option String := none
  filters : Option (List (String × FilterVal)) := none
  max_context_tokens : Nat := 4000
  relevance_threshold : ℚ := 7/10
deriving Repr, DecidableEq, Inhabited

/-- One entry of the `sources` list `process_query` builds per search
result. -/
structure SourceEntry where
  chunk_id : Option String
  document_id : String
  text_preview : String
  score : ℚ
  metadata : List (String × String)
deriving Repr, DecidableEq, Inhabited

/-- `QueryHandlerResponse.metadata`: the success dict or the
`{"error": str(e)}` dict of the handler's `except` branch. -/
inductive QHMetadata where
  | ok (query_embedding_length : Nat) (relevance_threshold : ℚ)
       (filters_applied : Option (List (String × FilterVal)))
       (context_truncated : Bool) (dropped_results : Nat) (entity_groups : Nat)
  | err (error : String)
deriving Repr, DecidableEq, Inhabited

/-- `app/services/query_handler.py` `QueryHandlerResponse`.  The dict
conversions `_convert_search_results` / `_convert_disambiguation_options`
are field-for-field projections, so the converted lists are carried as
the original values. -/
structure QueryHandlerResponse where
  query : String
  context : String
  sources : List SourceEntry
  needs_disambiguation : Bool
  disambiguation_options : Option (List DisambiguationOption) := none
  search_results : Option (List SearchResult) := none
  metadata : Option QHMetadata := none
  processing_time_ms : ℚ := 0
  total_tokens : Nat := 0
  context_sources_count : Nat := 0
  kb_results_count : Nat := 0
  web_results_count : Nat := 0
deriving Repr, DecidableEq, Inhabited

/-- `QueryHandlerService._build_context_text`. -/
def build_context_text (context_window : ContextWindow) : String :=
  if context_window.chunks.isEmpty then ""
  else
    String.intercalate "\n\n" (context_window.chunks.map fun chunk =>
      let source_info := "[" ++ chunk.source ++ "]"
      let source_info :=
        if optTruthy chunk.«section» then
          source_info ++ " [" ++ chunk.«section».getD "" ++ "]"
        else source_info
      source_info ++ " " ++ chunk.text)

/-- The `try` block of `QueryHandlerService.process_query`.  The two
collaborator calls that can fail — `embed_query` and the semantic search
service — enter as `Except` values; every later step is the in-memory
pipeline.  Wall-clock timing is fixed at 0. -/
def queryPipeline (enc : String → List Nat) (embed : Except String (List ℚ))
    (searchStep : Except String (List SearchResult))
    (request : QueryHandlerRequest) : Except String QueryHandlerResponse := do
  let query_embedding ← embed
  let search_results ← searchStep
  let disamb := disambiguate_results search_results 5 request.relevance_threshold
  let needs_disambiguation := disamb.2.isSome
  let context_window := build_context_from_results enc "gpt-3.5-turbo" search_results
    (some request.max_context_tokens) true true false
  let sources : List SourceEntry := search_results.map fun result =>
    { chunk_id := result.chunk_id
      document_id := result.document_id
      text_preview :=
        if result.text.length > 200 then result.text.take 200 ++ "..." else result.text
      score := result.score
      metadata := result.metadata }
  pure
    { query := request.query
      context := build_context_text context_window
      sources := sources
      needs_disambiguation := needs_disambiguation
      disambiguation_options := if needs_disambiguation then disamb.2 else none
      search_results := some search_results
      metadata := some (.ok query_embedding.length request.relevance_threshold
        request.filters
        (decide (context_window.chunks.length < search_results.length))
        (search_results.length - context_window.chunks.length)
        disamb.1.length)
      processing_time_ms := 0
      total_tokens := context_window.total_tokens
      context_sources_count := (dedupFirst (context_window.chunks.map (·.source))).length
      kb_results_count := search_results.length
      web_results_count := 0 }

/-- `QueryHandlerService.process_query`: the pipeline inside a
`try/except Exception` that converts any stage failure into the
degraded-but-well-formed error response. -/
def process_query (enc : String → List Nat) (embed : Except String (List ℚ))
    (searchStep : Except String (List SearchResult))
    (request : QueryHandlerRequest) : QueryHandlerResponse :=
  match queryPipeline enc embed searchStep request with
  | .ok response => response
  | .error e =>
    { query := request.query
      context := ""
      sources := []
      needs_disambiguation := false
      metadata := some (.err e)
      processing_time_ms := 0
      total_tokens := 0
      context_sources_count := 0
      kb_results_count := 0
      web_results_count := 0 }

theorem mem_dedupFirst {α : Type} [DecidableEq α] (l : List α) (x : α) :
    x ∈ dedupFirst l ↔ x ∈ l := by
  induction l with
  | nil => simp [dedupFirst]
  | cons a as ih =>
    simp only [dedupFirst, List.mem_cons, List.mem_filter, ih, decide_eq_true_eq]
    by_cases hx : x = a
    · simp [hx]
    · simp [hx]

theorem nodup_dedupFirst {α : Type} [DecidableEq α] (l : List α) :
    (dedupFirst l).Nodup := by
  induction l with
  | nil => exact List.nodup_nil
  | cons a as ih =>
    refine List.nodup_cons.mpr ⟨?_, ih.filter _⟩
    intro hmem
    have := (List.mem_filter.mp hmem).2
    simp at this

theorem dedupFirst_eq_self {α : Type} [DecidableEq α] {l : List α} (h : l.Nodup) :
    dedupFirst l = l := by
  induction l with
  | nil => rfl
  | cons a as ih =>
    obtain ⟨ha, has⟩ := List.nodup_cons.mp h
    simp only [dedupFirst, ih has, List.cons.injEq, true_and]
    refine List.filter_eq_self.mpr fun x hx => ?_
    simp only [decide_eq_true_eq]
    exact fun hxa => ha (hxa ▸ hx)

theorem filterMap_congr_mem {α β : Type} (f g : α → Option β) (l : List α)
    (h : ∀ x ∈ l, f x = g x) : l.filterMap f = l.filterMap g := by
  induction l with
  | nil => rfl
  | cons a as ih =>
    have ha := h a (List.mem_cons_self a as)
    have has := ih fun x hx => h x (List.mem_cons_of_mem a hx)
    simp only [List.filterMap_cons, ha, has]

/-- Bucketing a list by key over a duplicate-free covering key list and
concatenating the buckets permutes the list: the heart of the partition
invariant of the grouping step. -/
theorem perm_flatten_filter {α κ : Type} [DecidableEq κ] (key : α → κ)
    (keys : List κ) (l : List α) (hnd : keys.Nodup)
    (hcov : ∀ x ∈ l, key x ∈ keys) :
    ((keys.map fun k => l.filter fun x => decide (key x = k)).flatten).Perm l := by
  induction keys generalizing l with
  | nil =>
    cases l with
    | nil => simp
    | cons x xs => exact absurd (hcov x (List.mem_cons_self x xs)) (by simp)
  | cons k ks ih =>
    obtain ⟨hk, hks⟩ := List.nodup_cons.mp hnd
    have hrest :
        (ks.map fun k' => l.filter fun x => decide (key x = k')) =
          ks.map fun k' =>
            (l.filter fun x => !decide (key x = k)).filter fun x => decide (key x = k') := by
      refine List.map_congr_left fun k' hk' => ?_
      have hkk' : k' ≠ k := fun hh => hk (hh ▸ hk')
      rw [List.filter_filter]
      refine List.filter_congr fun x _ => ?_
      by_cases hxk : key x = k'
      · simp [hxk, hkk']
      · simp [hxk]
    have hcov' : ∀ x ∈ l.filter fun x => !decide (key x = k), key x ∈ ks := by
      intro x hx
      obtain ⟨hxl, hxk⟩ := List.mem_filter.mp hx
      have := hcov x hxl
      simp only [List.mem_cons] at this
      rcases this with h1 | h1
      · exact absurd (decide_eq_true h1) (by simpa using hxk)
      · exact h1
    have h1 : ((k :: ks).map fun k' => l.filter fun x => decide (key x = k')).flatten =
        (l.filter fun x => decide (key x = k)) ++
          ((ks.map fun k' => l.filter fun x => decide (key x = k')).flatten) := by
      simp
    rw [h1, hrest]
    exact (List.Perm.append_left _ (ih _ hks hcov')).trans
      (List.filter_append_perm (fun x => decide (key x = k)) l)

theorem insertDesc_perm (g : EntityGroup) (l : List EntityGroup) :
    (insertDesc g l).Perm (g :: l) := by
  induction l with
  | nil => exact List.Perm.refl _
  | cons h t ih =>
    by_cases hc : g.combined_score < h.combined_score
    · simp only [insertDesc, if_pos hc]
      exact ((ih.cons h).trans (List.Perm.swap g h t))
    · simp only [insertDesc, if_neg hc]
      exact List.Perm.refl _

theorem sortByScoreDesc_perm (l : List EntityGroup) :
    (sortByScoreDesc l).Perm l := by
  induction l with
  | nil => exact List.Perm.refl _
  | cons g gs ih =>
    exact (insertDesc_perm g (sortByScoreDesc gs)).trans (ih.cons g)

/-- Descending order on groups: each earlier group scores at least as
high as each later one. -/
def ScoreDesc (l : List EntityGroup) : Prop :=
  l.Pairwise fun a b => b.combined_score ≤ a.combined_score

theorem insertDesc_sorted {l : List EntityGroup} (g : EntityGroup)
    (h : ScoreDesc l) : ScoreDesc (insertDesc g l) := by
  induction l with
  | nil => simp [insertDesc, ScoreDesc]
  | cons a t ih =>
    obtain ⟨ha, ht⟩ := List.pairwise_cons.mp h
    by_cases hc : g.combined_score < a.combined_score
    · simp only [insertDesc, if_pos hc]
      refine List.pairwise_cons.mpr ⟨?_, ih ht⟩
      intro b hb
      have := (insertDesc_perm g t).mem_iff.mp hb
      rcases List.mem_cons.mp this with hb1 | hb1
      · exact hb1 ▸ le_of_lt hc
      · exact ha b hb1
    · simp only [insertDesc, if_neg hc]
      refine List.pairwise_cons.mpr ⟨?_, h⟩
      intro b hb
      rcases List.mem_cons.mp hb with hb1 | hb1
      · exact hb1 ▸ not_lt.mp hc
      · exact le_trans (ha b hb1) (not_lt.mp hc)

theorem sortByScoreDesc_sorted (l : List EntityGroup) :
    ScoreDesc (sortByScoreDesc l) := by
  induction l with
  | nil => simp [sortByScoreDesc, ScoreDesc]
  | cons g gs ih => exact insertDesc_sorted g ih

theorem sortByScoreDesc_eq_self {l : List EntityGroup} (h : ScoreDesc l) :
    sortByScoreDesc l = l := by
  induction l with
  | nil => rfl
  | cons g gs ih =>
    obtain ⟨hg, hgs⟩ := List.pairwise_cons.mp h
    simp only [sortByScoreDesc, ih hgs]
    cases gs with
    | nil => rfl
    | cons a t =>
      have : ¬g.combined_score < a.combined_score :=
        not_lt.mpr (hg a (List.mem_cons_self a t))
      simp [insertDesc, this]

theorem sortByScoreDesc_length (l : List EntityGroup) :
    (sortByScoreDesc l).length = l.length :=
  (sortByScoreDesc_perm l).length_eq

theorem map_results_group_aux (keys : List String) (results : List SearchResult)
    (h : ∀ k ∈ keys, results.filter (fun r => decide (r.document_id = k)) ≠ []) :
    ((keys.filterMap fun k =>
        mkDocGroup k (results.filter fun r => decide (r.document_id = k))).map (·.results)) =
      keys.map fun k => results.filter fun r => decide (r.document_id = k) := by
  induction keys with
  | nil => rfl
  | cons k ks ih =>
    obtain ⟨r, rest, heq⟩ :=
      List.exists_cons_of_ne_nil (h k (List.mem_cons_self k ks))
    obtain ⟨g, hg, hres⟩ : ∃ g,
        mkDocGroup k (results.filter fun x => decide (x.document_id = k)) = some g ∧
          g.results = results.filter fun x => decide (x.document_id = k) := by
      rw [heq]
      exact ⟨_, rfl, rfl⟩
    rw [List.filterMap_cons, hg, List.map_cons, hres,
      ih fun k' hk' => h k' (List.mem_cons_of_mem k hk')]
    rfl

/-- The results fields of the per-document groups, in bucket form. -/
theorem map_results_group_by_document (results : List SearchResult) :
    ((group_by_document results).map (·.results)) =
      (dedupFirst (results.map (·.document_id))).map
        fun k => results.filter fun r => decide (r.document_id = k) := by
  refine map_results_group_aux _ _ fun k hk => ?_
  have : k ∈ results.map (·.document_id) := (mem_dedupFirst _ _).mp hk
  obtain ⟨r, hr, rfl⟩ := List.mem_map.mp this
  intro hnil
  have : r ∈ results.filter fun x => decide (x.document_id = r.document_id) :=
    List.mem_filter.mpr ⟨hr, by simp⟩
  rw [hnil] at this
  exact List.not_mem_nil r this

/-- The document-level grouping partitions its input: concatenating the
groups' results permutes the supplied list. -/
theorem group_by_document_results_perm (results : List SearchResult) :
    (((group_by_document results).map (·.results)).flatten).Perm results := by
  rw [map_results_group_by_document]
  refine perm_flatten_filter (fun r => r.document_id) _ results (nodup_dedupFirst _) ?_
  intro x hx
  exact (mem_dedupFirst _ _).mpr (List.mem_map.mpr ⟨x, hx, rfl⟩)

theorem calculate_combined_score_singleton (r : SearchResult) :
    calculate_combined_score [r] = r.score := by
  simp [calculate_combined_score, weightedSums]

/-- The document group of a one-result bucket. -/
def singleDocGroup (r : SearchResult) : EntityGroup :=
  { entity_id := r.document_id
    entity_type := "document"
    entity_title := pyOrStr r.document_title ("Document " ++ r.document_id.take 8)
    results := [r]
    combined_score := r.score
    metadata := .doc r.document_id r.document_type 1
      (dedupFirst ((([r] : List SearchResult).filterMap (·.«section»)).filter strTruthy)) }

theorem mkDocGroup_singleton (r : SearchResult) :
    mkDocGroup r.document_id [r] = some (singleDocGroup r) := by
  simp [mkDocGroup, singleDocGroup, calculate_combined_score_singleton]

/-- With pairwise-distinct `document_id`s every bucket is a singleton, so
the document grouping is just a map. -/
theorem group_by_document_of_nodup (results : List SearchResult)
    (h : (results.map (·.document_id)).Nodup) :
    group_by_document results = results.map singleDocGroup := by
  induction results with
  | nil => rfl
  | cons r rs ih =>
    rw [List.map_cons] at h
    obtain ⟨hr, hrs⟩ := List.nodup_cons.mp h
    have hkeys : dedupFirst ((r :: rs).map (·.document_id)) =
        r.document_id :: rs.map (·.document_id) := by
      rw [List.map_cons]
      show r.document_id ::
          (dedupFirst (rs.map (·.document_id))).filter (fun y => decide (y ≠ r.document_id)) = _
      rw [dedupFirst_eq_self hrs]
      congr 1
      refine List.filter_eq_self.mpr fun x hx => ?_
      simp only [decide_eq_true_eq]
      exact fun hxr => hr (hxr ▸ hx)
    have hbucket_r : (r :: rs).filter (fun x => decide (x.document_id = r.document_id)) = [r] := by
      rw [List.filter_cons]
      simp only [decide_eq_true_eq, if_pos rfl]
      have : rs.filter (fun x => decide (x.document_id = r.document_id)) = [] := by
        refine List.filter_eq_nil_iff.mpr fun x hx => ?_
        simp only [decide_eq_true_eq]
        exact fun hxr => hr (hxr ▸ List.mem_map.mpr ⟨x, hx, rfl⟩)
      rw [this]
      rfl
    show (dedupFirst ((r :: rs).map (·.document_id))).filterMap
        (fun k => mkDocGroup k ((r :: rs).filter fun x => decide (x.document_id = k))) = _
    rw [hkeys, List.filterMap_cons, hbucket_r, mkDocGroup_singleton]
    have hrest : (rs.map (·.document_id)).filterMap
        (fun k => mkDocGroup k ((r :: rs).filter fun x => decide (x.document_id = k))) =
        (rs.map (·.document_id)).filterMap
          (fun k => mkDocGroup k (rs.filter fun x => decide (x.document_id = k))) := by
      refine filterMap_congr_mem _ _ _ fun k hk => ?_
      have hrk : ¬r.document_id = k := fun hco => hr (hco ▸ hk)
      rw [List.filter_cons]
      simp [hrk]
    rw [hrest, List.map_cons]
    have : group_by_document rs = (rs.map (·.document_id)).filterMap
        (fun k => mkDocGroup k (rs.filter fun x => decide (x.document_id = k))) := by
      show (dedupFirst (rs.map (·.document_id))).filterMap _ = _
      rw [dedupFirst_eq_self hrs]
    rw [← this, ih hrs]

/-- The section group of a one-result bucket. -/
def secGroupOf (r : SearchResult) : EntityGroup :=
  { entity_id := r.document_id ++ "_" ++ sectionKeyOf r
    entity_type := "section"
    entity_title :=
      if sectionKeyOf r ≠ "general" then
        pyOrStr r.document_title ("Document " ++ r.document_id.take 8) ++ " - " ++
          pyTitle (sectionKeyOf r)
      else pyOrStr r.document_title ("Document " ++ r.document_id.take 8)
    results := [r]
    combined_score := r.score
    metadata := .sec r.document_id (sectionKeyOf r) r.document_type 1 }

theorem group_by_section_singleton (r : SearchResult) :
    group_by_section [r] = [secGroupOf r] := by
  show (dedupFirst [sectionKeyOf r]).filterMap
      (fun s => mkSecGroup s ([r].filter fun x => decide (sectionKeyOf x = s))) = _
  simp [dedupFirst, mkSecGroup, secGroupOf, calculate_combined_score_singleton]

/-- When every group of `td` is a one-result document group, the
section-refinement step turns each into exactly one section group. -/
theorem flatten_sec_of_singles (td : List EntityGroup)
    (h : ∀ g ∈ td, ∃ r, g = singleDocGroup r) :
    ((td.map fun g => group_by_section g.results).flatten) =
      td.map fun g => secGroupOf (g.results.headD default) := by
  induction td with
  | nil => rfl
  | cons g gs ih =>
    obtain ⟨r, hg⟩ := h g (List.mem_cons_self g gs)
    subst hg
    have hrest := ih fun x hx => h x (List.mem_cons_of_mem _ hx)
    simp only [List.map_cons, List.flatten_cons, hrest]
    rw [show (singleDocGroup r).results = [r] from rfl, group_by_section_singleton]
    rfl

theorem packLoop_budget (max_tokens : Nat) (cs : List ContextChunk) (cur : Nat)
    (h : cur ≤ max_tokens) :
    cur + ((packLoop max_tokens cs cur).1.map (·.token_count)).sum ≤ max_tokens := by
  induction cs generalizing cur with
  | nil => simpa [packLoop]
  | cons c cs ih =>
    by_cases hc : cur + c.token_count ≤ max_tokens
    · simp only [packLoop, if_pos hc, List.map_cons, List.sum_cons]
      have := ih (cur + c.token_count) hc
      omega
    · simp only [packLoop, if_neg hc]
      exact ih cur h

theorem packLoop_count (max_tokens : Nat) (cs : List ContextChunk) (cur : Nat) :
    (packLoop max_tokens cs cur).2 + (packLoop max_tokens cs cur).1.length = cs.length := by
  induction cs generalizing cur with
  | nil => simp [packLoop]
  | cons c cs ih =>
    by_cases hc : cur + c.token_count ≤ max_tokens
    · simp only [packLoop, if_pos hc, List.length_cons]
      have := ih (cur + c.token_count)
      omega
    · simp only [packLoop, if_neg hc, List.length_cons]
      have := ih cur
      omega

theorem packLoop_sublist (max_tokens : Nat) (cs : List ContextChunk) (cur : Nat) :
    (packLoop max_tokens cs cur).1.Sublist cs := by
  induction cs generalizing cur with
  | nil => simp [packLoop]
  | cons c cs ih =>
    by_cases hc : cur + c.token_count ≤ max_tokens
    · simp only [packLoop, if_pos hc]
      exact (ih (cur + c.token_count)).cons₂ c
    · simp only [packLoop, if_neg hc]
      exact (ih cur).cons c

/-- The loop of `build_disambiguation_context` rewrites exactly those
options whose encoded sample exceeds the per-option budget, and leaves
every other option untouched. -/
theorem disambLoop_snd (enc : String → List Nat) (dec : List Nat → String)
    (budget : Nat) (i : Nat) (options : List DisambiguationOption) :
    List.Forall₂ (fun o o' =>
      ((o.sample_text = "" ∨ (enc o.sample_text).length ≤ budget) → o' = o) ∧
      ((o.sample_text ≠ "" ∧ budget < (enc o.sample_text).length) →
        o' = { o with sample_text := dec ((enc o.sample_text).take budget) ++ "..." }))
      options (disambLoop enc dec budget i options).2 := by
  induction options generalizing i with
  | nil => exact List.Forall₂.nil
  | cons o os ih =>
    refine List.Forall₂.cons ⟨?_, ?_⟩ (ih (i + 1))
    · intro hcase
      by_cases hs : o.sample_text = ""
      · simp [disambLoop, processOption, strTruthy, hs]
      · have hle : (enc o.sample_text).length ≤ budget := hcase.resolve_left hs
        have hngt : ¬((enc o.sample_text).length > budget) := not_lt.mpr hle
        simp [disambLoop, processOption, strTruthy, hs, hngt]
    · rintro ⟨hne, hgt⟩
      simp [disambLoop, processOption, strTruthy, hne, hgt]

/-- A concrete retrieved fragment used in the concrete scenarios. -/
def sampleResult (cid did : String) (s : ℚ) (txt : String) : SearchResult :=
  { chunk_id := some cid
    document_id := did
    text := txt
    metadata := []
    score := s
    document_title := some ("Title " ++ did)
    document_type := some "article"
    «section» := none }

/-- Scenario B input: two results from the same document `d1`. -/
def scenarioBResults : List SearchResult :=
  [sampleResult "c1" "d1" (9/10) "hello world", sampleResult "c2" "d1" (4/5) "second text"]

/-- Six results from six distinct documents, all scoring above `0.5`. -/
def sixDistinctResults : List SearchResult :=
  [sampleResult "c1" "d1" (9/10) "t1", sampleResult "c2" "d2" (88/100) "t2",
   sampleResult "c3" "d3" (86/100) "t3", sampleResult "c4" "d4" (84/100) "t4",
   sampleResult "c5" "d5" (82/100) "t5", sampleResult "c6" "d6" (8/10) "t6"]

/-- C1: as stated the partition invariant fails (the `> 5` refinement
path drops every result outside the top 3 documents), but it holds
whenever the input spans at most 5 distinct `document_id`s, so the
grouping step never enters the refinement: then the concatenation of the
returned groups' results is a permutation of the input — every supplied
`SearchResult` occurrence lands in exactly one group. -/
theorem c1_partition_invariant (results : List SearchResult)
    (h : (dedupFirst (results.map (·.document_id))).length ≤ 5) :
    (((group_results_by_entity results).map (·.results)).flatten).Perm results := by
  have hle : (group_by_document results).length ≤
      (dedupFirst (results.map (·.document_id))).length :=
    List.length_filterMap_le _ _
  simp only [group_results_by_entity]
  rw [if_neg (by omega)]
  exact group_by_document_results_perm results

/-- C1 counterexample: with six distinct documents the refinement keeps
only the top three documents' results, so the union of the returned
groups has 3 elements while the input has 6 — the partition invariant is
violated. -/
theorem c1_partition_counterexample :
    (((group_results_by_entity sixDistinctResults).map (·.results)).flatten).length = 3 ∧
    sixDistinctResults.length = 6 ∧
    decide ((((group_results_by_entity sixDistinctResults).map (·.results)).flatten).length
      = sixDistinctResults.length) = false := by
  with_unfolding_all decide

/-- C1 witness: the amended invariant at a concrete two-result input. -/
theorem c1_partition_witness :
    (((group_results_by_entity scenarioBResults).map (·.results)).flatten).Perm
      scenarioBResults :=
  c1_partition_invariant scenarioBResults (by decide)

/-- Scenario D chunks: token counts 3000, 3000, 100. -/
def scenarioDChunks : List ContextChunk :=
  [{ text := "a", source := "s1", «section» := none, chunk_id := some "c1",
     document_id := "d1", relevance_score := 9/10, token_count := 3000 },
   { text := "b", source := "s2", «section» := none, chunk_id := some "c2",
     document_id := "d2", relevance_score := 8/10, token_count := 3000 },
   { text := "c", source := "s3", «section» := none, chunk_id := some "c3",
     document_id := "d3", relevance_score := 7/10, token_count := 100 }]

/-- C2: greedy packing semantics of `_apply_token_limit`: the admitted
chunks always fit the budget; `truncated` is set exactly when a
non-empty input's total demand exceeds the budget; under truncation the
dropped and kept chunks account for the whole input; a fitting input is
returned whole with nothing dropped; the kept chunks are an
order-preserving subsequence (the scan continues past rejections); and
Scenario D behaves as specified. -/
theorem c2_greedy_packing :
    (∀ (chunks : List ContextChunk) (max_tokens : Nat),
      ((apply_token_limit chunks max_tokens).1.map (·.token_count)).sum ≤ max_tokens ∧
      ((apply_token_limit chunks max_tokens).2.1 = true ↔
        chunks ≠ [] ∧ max_tokens < (chunks.map (·.token_count)).sum) ∧
      ((apply_token_limit chunks max_tokens).2.1 = true →
        (apply_token_limit chunks max_tokens).2.2 +
          (apply_token_limit chunks max_tokens).1.length = chunks.length) ∧
      ((chunks.map (·.token_count)).sum ≤ max_tokens →
        (apply_token_limit chunks max_tokens).2.1 = false ∧
          (apply_token_limit chunks max_tokens).2.2 = 0) ∧
      (apply_token_limit chunks max_tokens).1.Sublist chunks) ∧
    ((apply_token_limit scenarioDChunks 4000).1.map (·.token_count) = [3000, 100] ∧
     (apply_token_limit scenarioDChunks 4000).2.1 = true ∧
     (apply_token_limit scenarioDChunks 4000).2.2 = 1 ∧
     ((apply_token_limit scenarioDChunks 4000).1.map (·.token_count)).sum = 3100) := by
  constructor
  · intro chunks max_tokens
    cases hc : chunks.isEmpty with
    | true =>
      have hnil : chunks = [] := by simpa using hc
      subst hnil
      simp [apply_token_limit]
    | false =>
      have hne : chunks ≠ [] := by simpa using hc
      by_cases ht : (chunks.map (·.token_count)).sum ≤ max_tokens
      · have happ : apply_token_limit chunks max_tokens = (chunks, false, 0) := by
          simp [apply_token_limit, hc, ht]
        rw [happ]
        refine ⟨ht, ?_, by simp, fun _ => ⟨rfl, rfl⟩, List.Sublist.refl _⟩
        simp only [Bool.false_eq_true, false_iff, not_and, not_lt]
        exact fun _ => ht
      · have happ : apply_token_limit chunks max_tokens =
            ((packLoop max_tokens chunks 0).1, true, (packLoop max_tokens chunks 0).2) := by
          simp [apply_token_limit, hc, ht]
        rw [happ]
        refine ⟨?_, ?_, fun _ => packLoop_count max_tokens chunks 0,
          fun hcon => absurd hcon ht, packLoop_sublist max_tokens chunks 0⟩
        · simpa using packLoop_budget max_tokens chunks 0 (Nat.zero_le _)
        · simp [hne, not_le.mp ht]
  · refine ⟨by decide, by decide, by decide, by decide⟩

/-- C5: the combined score of a non-empty group equals
`Σ wᵢ·scoreᵢ / Σ wᵢ` with position weights `wᵢ = 1/(i+1)`, and the empty
group scores `0`. -/
theorem c5_combined_score_formula (results : List SearchResult) :
    (results ≠ [] →
      calculate_combined_score results =
        (∑ i ∈ Finset.range results.length,
            1 / ((i : ℚ) + 1) * (results.getD i default).score) /
          ∑ i ∈ Finset.range results.length, 1 / ((i : ℚ) + 1)) ∧
    calculate_combined_score [] = 0 := by
  refine ⟨fun hne => ?_, rfl⟩
  have hpos := weightedSums_snd_pos results hne 0
  have hW := weightedSums_eq results 0
  have hempty : results.isEmpty = false := by
    cases results with
    | nil => exact absurd rfl hne
    | cons a l => rfl
  rw [hW] at hpos
  simp only [Nat.cast_zero, add_zero] at hpos
  simp only [calculate_combined_score, hempty, Bool.false_eq_true, if_false, hW,
    Nat.cast_zero, add_zero]
  rw [if_pos hpos]

/-- C10: for a non-empty group whose scores lie in `[0,1]`, the combined
score lies in `[0,1]`, below every upper bound of the scores (hence
below their maximum) and above every lower bound (hence above their
minimum); the empty group scores exactly `0`. -/
theorem c10_combined_score_bounds (results : List SearchResult)
    (hne : results ≠ [])
    (h01 : ∀ r ∈ results, 0 ≤ r.score ∧ r.score ≤ 1) :
    (0 ≤ calculate_combined_score results ∧ calculate_combined_score results ≤ 1) ∧
    (∀ b, (∀ r ∈ results, r.score ≤ b) → calculate_combined_score results ≤ b) ∧
    (∀ a, (∀ r ∈ results, a ≤ r.score) → a ≤ calculate_combined_score results) ∧
    calculate_combined_score [] = 0 := by
  refine ⟨?_, ?_, ?_, rfl⟩
  · exact calculate_combined_score_between results hne 0 1
      (fun r hr => (h01 r hr).1) (fun r hr => (h01 r hr).2)
  · intro b hb
    exact (calculate_combined_score_between results hne 0 b
      (fun r hr => (h01 r hr).1) hb).2
  · intro a ha
    exact (calculate_combined_score_between results hne a 1
      ha (fun r hr => (h01 r hr).2)).1

/-- A two-result group used to instantiate the bounds theorem. -/
def boundedScoreResults : List SearchResult :=
  [sampleResult "w1" "dw" (1/2) "wtext", sampleResult "w2" "dw" (3/4) "wtext2"]

/-- C10 witness: the bounds at a concrete two-result group. -/
theorem c10_bounds_witness :
    (0 ≤ calculate_combined_score boundedScoreResults ∧
      calculate_combined_score boundedScoreResults ≤ 1) ∧
    (∀ b, (∀ r ∈ boundedScoreResults, r.score ≤ b) →
      calculate_combined_score boundedScoreResults ≤ b) ∧
    (∀ a, (∀ r ∈ boundedScoreResults, a ≤ r.score) →
      a ≤ calculate_combined_score boundedScoreResults) ∧
    calculate_combined_score [] = 0 :=
  c10_combined_score_bounds boundedScoreResults (by decide)
    (by with_unfolding_all decide)

/-- C3: as stated the claim fails — six results from six distinct
documents put the document partition at 6 > 5 groups, which triggers the
section refinement; only the top 3 documents survive, each contributing
one section group.  Amended: such an input yields 3 entity groups (not
5), and `disambiguation_options` has 3 entries ordered by descending
combined score. -/
theorem c3_six_distinct_refinement (results : List SearchResult) (t : ℚ)
    (hlen : results.length = 6)
    (hnd : (results.map (·.document_id)).Nodup)
    (hscore : ∀ r ∈ results, t ≤ r.score) :
    (disambiguate_results results 5 t).1.length = 3 ∧
    ∃ opts, (disambiguate_results results 5 t).2 = some opts ∧ opts.length = 3 ∧
      opts.Pairwise fun a b => b.avg_score ≤ a.avg_score := by
  have hgbd : group_by_document results = results.map singleDocGroup :=
    group_by_document_of_nodup results hnd
  have hlen6 : (group_by_document results).length = 6 := by
    rw [hgbd, List.length_map, hlen]
  have htdmem : ∀ g ∈ (sortByScoreDesc (group_by_document results)).take 3,
      ∃ r, r ∈ results ∧ g = singleDocGroup r := by
    intro g hg
    have h1 : g ∈ sortByScoreDesc (group_by_document results) := List.mem_of_mem_take hg
    have h2 : g ∈ group_by_document results := (sortByScoreDesc_perm _).mem_iff.mp h1
    rw [hgbd] at h2
    obtain ⟨r, hr, rfl⟩ := List.mem_map.mp h2
    exact ⟨r, hr, rfl⟩
  have htdlen : ((sortByScoreDesc (group_by_document results)).take 3).length = 3 := by
    rw [List.length_take, sortByScoreDesc_length, hlen6]
    decide
  have htdsorted : ScoreDesc ((sortByScoreDesc (group_by_document results)).take 3) :=
    List.Pairwise.sublist (List.take_sublist _ _) (sortByScoreDesc_sorted _)
  have hscoref : ∀ g ∈ (sortByScoreDesc (group_by_document results)).take 3,
      (secGroupOf (g.results.headD default)).combined_score = g.combined_score := by
    intro g hg
    obtain ⟨r, _, rfl⟩ := htdmem g hg
    rfl
  have hG3 : group_results_by_entity results =
      ((sortByScoreDesc (group_by_document results)).take 3).map
        fun g => secGroupOf (g.results.headD default) := by
    simp only [group_results_by_entity, hlen6]
    rw [if_pos (by norm_num)]
    exact flatten_sec_of_singles _ fun g hg => (htdmem g hg).imp fun r hh => hh.2
  have hG3len : (((sortByScoreDesc (group_by_document results)).take 3).map
      fun g => secGroupOf (g.results.headD default)).length = 3 := by
    rw [List.length_map, htdlen]
  have hG3sorted : ScoreDesc (((sortByScoreDesc (group_by_document results)).take 3).map
      fun g => secGroupOf (g.results.headD default)) := by
    rw [ScoreDesc, List.pairwise_map]
    refine List.Pairwise.imp_of_mem ?_ htdsorted
    intro a b ha hb hab
    rw [hscoref a ha, hscoref b hb]
    exact hab
  have hG3mem : ∀ g ∈ ((sortByScoreDesc (group_by_document results)).take 3).map
      (fun g => secGroupOf (g.results.headD default)), t ≤ g.combined_score := by
    intro g hg
    obtain ⟨g', hg', rfl⟩ := List.mem_map.mp hg
    obtain ⟨r, hr, rfl⟩ := htdmem g' hg'
    exact hscore r hr
  have hlimited : limitedGroups results 5 t =
      ((sortByScoreDesc (group_by_document results)).take 3).map
        fun g => secGroupOf (g.results.headD default) := by
    simp only [limitedGroups, hG3]
    rw [List.filter_eq_self.mpr fun g hg => decide_eq_true (hG3mem g hg),
      sortByScoreDesc_eq_self hG3sorted]
    exact List.take_of_length_le (by rw [hG3len]; norm_num)
  have hnil : results.isEmpty = false := by
    cases results with
    | nil => simp at hlen
    | cons a l => rfl
  have hout : disambiguate_results results 5 t =
      (((sortByScoreDesc (group_by_document results)).take 3).map
          (fun g => secGroupOf (g.results.headD default)),
        some (create_disambiguation_options
          (((sortByScoreDesc (group_by_document results)).take 3).map
            fun g => secGroupOf (g.results.headD default)))) := by
    simp only [disambiguate_results, hnil, Bool.false_eq_true, if_false, hlimited, hG3len]
    norm_num
  refine ⟨by rw [hout]; exact hG3len, create_disambiguation_options _, by rw [hout], ?_, ?_⟩
  · simp only [create_disambiguation_options, List.length_map]
    exact htdlen
  · simp only [create_disambiguation_options, List.pairwise_map]
    refine List.Pairwise.imp_of_mem ?_ htdsorted
    intro a b ha hb hab
    rw [hscoref a ha, hscoref b hb]
    exact hab

/-- C3 counterexample: the concrete six-distinct-document input returns
3 groups and 3 options, not the 5 the claim states. -/
theorem c3_counterexample :
    (disambiguate_results sixDistinctResults 5 (1/2)).1.length = 3 ∧
    ((disambiguate_results sixDistinctResults 5 (1/2)).2.map List.length) = some 3 ∧
    decide ((disambiguate_results sixDistinctResults 5 (1/2)).1.length = 5) = false := by
  with_unfolding_all decide

/-- C3 witness: the amended statement at the concrete six-document
input. -/
theorem c3_witness :
    (disambiguate_results sixDistinctResults 5 (1/2)).1.length = 3 ∧
    ∃ opts, (disambiguate_results sixDistinctResults 5 (1/2)).2 = some opts ∧
      opts.length = 3 ∧ opts.Pairwise fun a b => b.avg_score ≤ a.avg_score :=
  c3_six_distinct_refinement sixDistinctResults (1/2) (by decide) (by decide)
    (by with_unfolding_all decide)

theorem limitedGroups_nil (m : Nat) (t : ℚ) : limitedGroups [] m t = [] := by
  simp only [limitedGroups, show group_results_by_entity [] = [] from rfl,
    List.filter_nil, sortByScoreDesc, List.take_nil]

/-- C4: the three terminal outcomes of `disambiguate_results` — empty
input or an empty post-filter/sort/limit group list gives
`([], none)`; exactly one surviving group is returned alone with no
options; more than one surviving group is returned with one option per
group in the same order; and Scenario B (two results from document `d1`,
scores 0.9 and 0.8) yields the single group `d1` with no options. -/
theorem c4_three_outcomes :
    (∀ (m : Nat) (t : ℚ), disambiguate_results [] m t = ([], none)) ∧
    (∀ (results : List SearchResult) (m : Nat) (t : ℚ),
      limitedGroups results m t = [] → disambiguate_results results m t = ([], none)) ∧
    (∀ (results : List SearchResult) (m : Nat) (t : ℚ) (g : EntityGroup),
      limitedGroups results m t = [g] → disambiguate_results results m t = ([g], none)) ∧
    (∀ (results : List SearchResult) (m : Nat) (t : ℚ),
      1 < (limitedGroups results m t).length →
        disambiguate_results results m t =
          (limitedGroups results m t,
            some (create_disambiguation_options (limitedGroups results m t)))) ∧
    ((disambiguate_results scenarioBResults 5 (mkRat 1 2)).1.map (·.entity_id) = ["d1"] ∧
     (disambiguate_results scenarioBResults 5 (mkRat 1 2)).1.length = 1 ∧
     (disambiguate_results scenarioBResults 5 (mkRat 1 2)).2 = none) := by
  refine ⟨fun m t => rfl, ?_, ?_, ?_, ?_⟩
  · intro results m t h
    cases hre : results.isEmpty with
    | true => simp [disambiguate_results, hre]
    | false =>
      simp only [disambiguate_results, hre, Bool.false_eq_true, if_false, h,
        List.length_nil]
      norm_num
  · intro results m t g h
    cases hre : results.isEmpty with
    | true =>
      have : results = [] := by simpa using hre
      subst this
      rw [limitedGroups_nil] at h
      exact absurd h (by simp)
    | false =>
      simp only [disambiguate_results, hre, Bool.false_eq_true, if_false, h,
        List.length_cons, List.length_nil]
      norm_num
  · intro results m t h
    cases hre : results.isEmpty with
    | true =>
      have : results = [] := by simpa using hre
      subst this
      rw [limitedGroups_nil] at h
      simp at h
    | false =>
      have hne1 : ¬((limitedGroups results m t).length = 1) := by omega
      simp only [disambiguate_results, hre, Bool.false_eq_true, if_false, hne1, if_false,
        h, if_true]
  · refine ⟨?_, ?_, ?_⟩ <;> with_unfolding_all decide

/-- A group whose top text has 2 characters: far below the 200-character
cut, yet the option builder still appends the ellipsis. -/
def shortTextGroup : EntityGroup :=
  { entity_id := "d1"
    entity_type := "document"
    entity_title := "Title d1"
    results := [sampleResult "c1" "d1" (mkRat 9 10) "hi"]
    combined_score := mkRat 9 10
    metadata := .doc "d1" (some "article") 1 [] }

/-- A group whose top text has 500 characters. -/
def longTextGroup : EntityGroup :=
  { entity_id := "d2"
    entity_type := "document"
    entity_title := "Title d2"
    results := [sampleResult "c2" "d2" (mkRat 9 10) ((List.replicate 500 'a').asString)]
    combined_score := mkRat 9 10
    metadata := .doc "d2" (some "article") 1 [] }

set_option maxRecDepth 16000 in
/-- C6 counterexample: a 2-character top text is not truncated by the
200-character cut, yet `sample_text` still ends in `"..."` — the suffix
is appended whenever the group has any result, because the conditional
in the source guards on `group.results`, not on truncation. -/
theorem c6_sample_counterexample :
    (create_disambiguation_options [shortTextGroup]).map (·.sample_text) = ["hi..."] ∧
    decide ((create_disambiguation_options [shortTextGroup]).map (·.sample_text)
      = ["hi"]) = false := by
  with_unfolding_all decide

set_option maxRecDepth 16000 in
/-- C6: amended — for every group with at least one result,
`sample_text` is the first 200 characters of the top result's text with
the `"..."` suffix appended unconditionally (a group with no results
gets `""`); a 500-character top text gives a sample of length exactly
203. -/
theorem c6_sample_text (groups : List EntityGroup) :
    List.Forall₂ (fun g opt =>
      (g.results = [] → opt.sample_text = "") ∧
      ∀ r rest, g.results = r :: rest → opt.sample_text = r.text.take 200 ++ "...")
      groups (create_disambiguation_options groups) ∧
    (create_disambiguation_options [longTextGroup]).map (·.sample_text.length) = [203] := by
  constructor
  · refine List.forall₂_map_right_iff.mpr (List.forall₂_same.mpr fun g _ => ⟨?_, ?_⟩)
    · intro hnil
      simp [create_disambiguation_options, hnil]
    · intro r rest hcons
      simp [create_disambiguation_options, hcons]
  · simp only [create_disambiguation_options, longTextGroup, sampleResult, List.map_cons,
      List.map_nil, List.cons.injEq, and_true]
    rw [show ∀ a b : String, (a ++ b).length = a.length + b.length from fun a b =>
      String.length_append a b]
    rw [String.take_eq]
    show ((List.replicate 500 'a').asString.data.take 200).length + 3 = 203
    rw [show (List.replicate 500 'a').asString.data = List.replicate 500 'a' from rfl]
    rw [List.take_replicate]
    simp

/-- C7: the vector search adapter requests `2×limit` candidates, keeps
exactly the candidates scoring at least the relevance threshold,
truncates to the first `limit` of them, and returns an order-preserving
subsequence of the candidate list (no re-sorting). -/
theorem c7_search_adapter (index : Nat → ℚ → Option String → List VectorHit)
    (request : SearchRequest) :
    ((search index request).results =
      ((process_search_results
          (index (request.limit * 2) request.relevance_threshold
            (extract_document_filter request.filters)) request).filter
        (fun r => decide (request.relevance_threshold ≤ r.score))).take request.limit) ∧
    (∀ r ∈ (search index request).results, request.relevance_threshold ≤ r.score) ∧
    (search index request).results.length ≤ request.limit ∧
    (search index request).results.Sublist
      (process_search_results
        (index (request.limit * 2) request.relevance_threshold
          (extract_document_filter request.filters)) request) := by
  refine ⟨rfl, ?_, ?_, ?_⟩
  · intro r hr
    have h1 : r ∈ (process_search_results _ request).filter
        (fun r => decide (request.relevance_threshold ≤ r.score)) :=
      List.mem_of_mem_take hr
    simpa using (List.mem_filter.mp h1).2
  · show (List.take request.limit _).length ≤ request.limit
    rw [List.length_take]
    exact min_le_left _ _
  · exact (List.take_sublist _ _).trans (List.filter_sublist _)

/-- C8: the orchestrator is total — whatever the collaborators return it
produces a well-formed `QueryHandlerResponse`; when any pipeline stage
fails it returns the degraded response with empty context and sources,
`needs_disambiguation = false`, all counts zero and the error recorded
in metadata; a successful pipeline value passes through unchanged; and
the pipeline fails exactly when the embedding or the search collaborator
fails. -/
theorem c8_orchestrator_never_raises (enc : String → List Nat)
    (embed : Except String (List ℚ))
    (searchStep : Except String (List SearchResult))
    (request : QueryHandlerRequest) :
    (∀ e, queryPipeline enc embed searchStep request = .error e →
      (process_query enc embed searchStep request).context = "" ∧
      (process_query enc embed searchStep request).sources = [] ∧
      (process_query enc embed searchStep request).needs_disambiguation = false ∧
      (process_query enc embed searchStep request).disambiguation_options = none ∧
      (process_query enc embed searchStep request).search_results = none ∧
      (process_query enc embed searchStep request).total_tokens = 0 ∧
      (process_query enc embed searchStep request).context_sources_count = 0 ∧
      (process_query enc embed searchStep request).kb_results_count = 0 ∧
      (process_query enc embed searchStep request).web_results_count = 0 ∧
      (process_query enc embed searchStep request).metadata = some (.err e) ∧
      (process_query enc embed searchStep request).query = request.query) ∧
    (∀ r, queryPipeline enc embed searchStep request = .ok r →
      process_query enc embed searchStep request = r) ∧
    ((∃ e, queryPipeline enc embed searchStep request = .error e) ↔
      (∃ e, embed = .error e) ∨
        ((∃ v, embed = .ok v) ∧ ∃ e, searchStep = .error e)) := by
  refine ⟨?_, ?_, ?_⟩
  · intro e he
    simp [process_query, he]
  · intro r hr
    simp only [process_query, hr]
  · constructor
    · rintro ⟨e, he⟩
      cases embed with
      | error e' => exact Or.inl ⟨e', rfl⟩
      | ok v =>
        cases searchStep with
        | error e' => exact Or.inr ⟨⟨v, rfl⟩, e', rfl⟩
        | ok rs => exact Except.noConfusion he
    · rintro (⟨e, he⟩ | ⟨⟨v, hv⟩, e, he⟩)
      · exact ⟨e, by subst he; rfl⟩
      · exact ⟨e, by subst hv; subst he; rfl⟩

/-- The character-level tokenizer used to instantiate the counterexample
(the spec allows any consistent subword tokenizer). -/
def charEncode (s : String) : List Nat := s.data.map Char.toNat

/-- Inverse of `charEncode`. -/
def charDecode (l : List Nat) : String := (l.map Char.ofNat).asString

/-- A disambiguation option whose 2-character sample exceeds a 1-token
budget under the character tokenizer. -/
def optionAB : DisambiguationOption :=
  { group_id := "d1"
    title := "Title d1"
    description := "Document with 1 relevant sections"
    entity_type := "document"
    result_count := 1
    avg_score := mkRat 9 10
    sample_text := "ab"
    metadata := .doc "d1" (some "article") 1 [] }

/-- C9 counterexample: building the disambiguation context with a
1-token-per-option budget rewrites the stored option in place — its
`sample_text` comes back `"a..."`, not the original `"ab"`. -/
theorem c9_mutation_counterexample :
    ((build_disambiguation_context charEncode charDecode [optionAB] 1).2.map
      (·.sample_text)) = ["a..."] ∧
    decide (((build_disambiguation_context charEncode charDecode [optionAB] 1).2.map
      (·.sample_text)) = [optionAB.sample_text]) = false := by
  with_unfolding_all decide

/-- C9: amended — `build_disambiguation_context` leaves an option's
`sample_text` unchanged exactly when the encoded sample fits the
per-option budget (or is empty); an over-budget sample is overwritten in
place with the decoded first `budget` tokens plus `"..."`. -/
theorem c9_sample_text_frame (enc : String → List Nat) (dec : List Nat → String)
    (options : List DisambiguationOption) (max_tokens_per_option : Nat) :
    List.Forall₂ (fun o o' =>
      ((o.sample_text = "" ∨ (enc o.sample_text).length ≤ max_tokens_per_option) →
        o' = o) ∧
      ((o.sample_text ≠ "" ∧ max_tokens_per_option < (enc o.sample_text).length) →
        o' = { o with
          sample_text := dec ((enc o.sample_text).take max_tokens_per_option) ++ "..." }))
      options (build_disambiguation_context enc dec options max_tokens_per_option).2 :=
  disambLoop_snd enc dec max_tokens_per_option 1 options

end Rag
